import Mathlib

/-!
Verification of the Interpreter core of `Logic/Environment.py` (uArmCreatorStudio).

The Python source is shallowly embedded: the variable store and expression
sandbox (`setVariable`, `evaluateExpression`, `evaluateScript`), the script
loader (`loadScript`), the lifecycle/stop protocol (`endThread`, `isRunning`,
`isExiting`, `getStatus`) and the per-tick event executor
(`__interpretEvent` / `__getNextIndex`) become pure Lean functions over
explicit state.  External collaborators (the Events/Commands catalogue,
robot/vision handles, threads) are modelled by the narrow interface the core
consumes, following the spec where their code is not available.
-/

namespace UArmEnv

/-- A Python value as far as the interpreter's variable store is concerned:
a number (Python ints/floats are modelled by ℚ), the `None` value, a callable
builtin identified by name, or an opaque hardware handle (`robot`/`vision`). -/
inductive PyVal where
  | num (q : ℚ)
  | pynone
  | fn (name : String)
  | handle (name : String)
  deriving DecidableEq

/-- `self.__variables`: a Python dict, modelled as an association list in
insertion order (Python dicts preserve insertion order). -/
abbrev VarMap := List (String × PyVal)

/-- Python dict read: `m[k]` if present. -/
def dictGet (m : VarMap) (k : String) : Option PyVal :=
  (m.find? (fun p => p.1 = k)).map (fun p => p.2)

/-- Python dict assignment `m[k] = v`: overwrite in place if the key exists,
otherwise append (insertion order semantics). -/
def dictSet (m : VarMap) (k : String) (v : PyVal) : VarMap :=
  if m.any (fun p => p.1 = k) then m.map (fun p => if p.1 = k then (k, v) else p)
  else m ++ [(k, v)]

/-- The exceptions the sandboxed `eval` in `evaluateExpression` can raise. -/
inductive PyErr where
  | nameError
  | typeError
  | zeroDivision
  deriving DecidableEq

/-- Arithmetic operators appearing in expressions. -/
inductive Op where
  | add
  | sub
  | mul
  | div
  deriving DecidableEq

/-- An already-parsed Python expression, as passed to `eval(expression,
{"__builtins__": None}, self.__variables)`: literals, variable references,
single-argument calls and binary arithmetic.  (Surface syntax errors are out
of scope of the embedding; expressions arrive parsed.) -/
inductive Expr where
  | lit (q : ℚ)
  | evar (name : String)
  | call (fname : String) (arg : Expr)
  | binop (op : Op) (a b : Expr)
  deriving DecidableEq

/-- Non-division arithmetic. -/
def applyOp : Op → ℚ → ℚ → ℚ
  | .add, a, b => a + b
  | .sub, a, b => a - b
  | .mul, a, b => a * b
  | .div, a, b => a / b

/-- Modelled from the spec: semantics of the allow-listed math callables
(§4.5 "math allow-list, `abs`"); the math module itself is not part of the
source under verification.  Only the functions the claims mention are given
semantics; a call on anything else raises, as a Python call on an unsuitable
argument would. -/
def applyFn : String → PyVal → Except PyErr PyVal
  | "sqrt", .num q => .ok (.num (Rat.sqrt q))
  | "abs", .num q => .ok (.num |q|)
  | _, _ => .error .typeError

/-- The sandboxed `eval` of line 275: names resolve only through the locals
dict `self.__variables` (globals expose no builtins); an unbound name raises
`NameError`, calling a non-callable (for example a name bound to `None`)
raises `TypeError`, and `1/0`-style division raises `ZeroDivisionError`. -/
def evalE : Expr → VarMap → Except PyErr PyVal
  | .lit q, _ => .ok (.num q)
  | .evar n, env =>
    match dictGet env n with
    | some v => .ok v
    | none => .error .nameError
  | .call f a, env =>
    match dictGet env f with
    | none => .error .nameError
    | some fv =>
      match evalE a env with
      | .error e => .error e
      | .ok av =>
        match fv with
        | .fn s => applyFn s av
        | _ => .error .typeError
  | .binop op a b, env =>
    match evalE a env with
    | .error e => .error e
    | .ok (.num x) =>
      match evalE b env with
      | .error e => .error e
      | .ok (.num y) =>
        match op with
        | .div => if y = 0 then .error .zeroDivision else .ok (.num (x / y))
        | _ => .ok (.num (applyOp op x y))
      | .ok _ => .error .typeError
    | .ok _ => .error .typeError

/-- `Interpreter.evaluateExpression` (lines 268-284): returns
`(value, success)`; any exception is caught and yields `(None, False)`, and a
successful evaluation whose answer is `None` also yields `(None, False)`. -/
def evaluateExpression (e : Expr) (vars : VarMap) : PyVal × Bool :=
  match evalE e vars with
  | .error _ => (.pynone, false)
  | .ok v => if v = .pynone then (.pynone, false) else (v, true)

/-- `Interpreter.setVariable` (lines 238-258): create the name with default 0
if absent, evaluate the expression, then assign `self.__variables[name] =
newValue` unconditionally — the `if success:` guard in the source is commented
out, so a failed evaluation stores `None`. -/
def setVariable (vars : VarMap) (name : String) (expression : Expr) : VarMap :=
  let vars1 := if dictGet vars name = none then dictSet vars name (.num 0) else vars
  let r := evaluateExpression expression vars1
  dictSet vars1 name r.1

/-- The observable behaviour of `exec(script)` inside `evaluateScript`: the
execution either raises or completes.  In Python 3, `exec` called inside a
function cannot rebind the function's own local variables, so the local
`answer` of `evaluateScript` is unaffected either way. -/
inductive ExecOutcome where
  | raises
  | completes
  deriving DecidableEq

/-- `Interpreter.evaluateScript` (lines 286-305): `answer = None`, run
`exec(script)` (which cannot rebind the local `answer`), return
`(None, False)` on an exception; otherwise `answer` is still `None`, so the
`if answer is None` branch also returns `(None, False)`. -/
def evaluateScript (oc : ExecOutcome) : PyVal × Bool :=
  let answer : PyVal := .pynone
  match oc with
  | .raises => (.pynone, false)
  | .completes => if answer = .pynone then (.pynone, false) else (answer, true)

/-- The tri-state outcome of `command.run()` as the executor loop of
`__interpretEvent` classifies it: the string `"Exit"`, the value `False`,
or anything else (continue). -/
inductive Outcome where
  | exitOutcome
  | falseOutcome
  | contOutcome
  deriving DecidableEq

/-- Modelled from the spec: the Command variants the executor's control flow
distinguishes (§3).  `Commands.py` is not part of the source under
verification; only the `type(...) is Commands.XCommand` checks of
`__interpretEvent`/`__getNextIndex` and the `run()` outcome matter here.
`ifC b` is a conditional whose `run()` returns `b`; `plain` is any ordinary
command (returns neither `False` nor `"Exit"`); `exitC` returns `"Exit"`. -/
inductive Cmd where
  | ifC (b : Bool)
  | startBlock
  | endBlock
  | elseC
  | plain (tag : Nat)
  | exitC
  deriving DecidableEq

/-- `type(c) is Commands.StartBlockCommand`. -/
def Cmd.isStartBlock : Cmd → Bool
  | .startBlock => true
  | _ => false

/-- `type(c) is Commands.EndBlockCommand`. -/
def Cmd.isEndBlock : Cmd → Bool
  | .endBlock => true
  | _ => false

/-- `type(c) is Commands.ElseCommand`. -/
def Cmd.isElse : Cmd → Bool
  | .elseC => true
  | _ => false

/-- Modelled from the spec: the `run()` outcome of each variant (§3, §4.4).
A conditional returns its evaluation; the block/else sentinels and ordinary
commands return neither `False` nor `"Exit"`. -/
def Cmd.run : Cmd → Outcome
  | .ifC b => if b then .contOutcome else .falseOutcome
  | .exitC => .exitOutcome
  | _ => .contOutcome

/-- The body of the `for i in range(index + 1, len(commandList))` loop of
`__getNextIndex` (lines 374-397), over the explicit list of loop indices.
`fallback` is the incoming `index`, returned when the range is empty (the
loop never completes exhaustively otherwise, because of the
`i == len(commandList) - 1` break). -/
def scanFrom (cmds : List Cmd) (fallback : Nat) : List Nat → Int → Nat
  | [], _ => fallback
  | i :: rest, nextIndent =>
    let d1 := if (cmds.getD i (.plain 0)).isStartBlock then nextIndent + 1 else nextIndent
    if d1 = 0 then i - 1
    else if i = cmds.length - 1 then i
    else scanFrom cmds fallback rest (if (cmds.getD i (.plain 0)).isEndBlock then d1 - 1 else d1)

/-- `Interpreter.__getNextIndex(index, commandList)`: scan forward from
`index + 1` tracking block depth (`skipToIndent` is the constant 0 in the
source) and return the index the caller's `index += 1` will advance past. -/
def getNextIndex (index : Nat) (cmds : List Cmd) : Nat :=
  scanFrom cmds index (List.range' (index + 1) (cmds.length - (index + 1))) 0

/-- The `while index < len(event.commandList)` loop of `__interpretEvent`
(lines 337-372) for one uninterrupted pass (no exit request, or the
destroy-event pass with `overrideKillApp`), returning the command indices
appended to `self.currRunning[eventIndex]`, in execution order.  `oc` gives
the outcome of `commandList[i].run()`.  `fuel` bounds the number of loop
iterations; since the cursor strictly increases, `cmds.length - index` always
suffices (theorem `runPassGo_fuel_invariant`). -/
def runPassGo (cmds : List Cmd) (oc : Nat → Outcome) : Nat → Nat → List Nat
  | 0, _ => []
  | fuel + 1, index =>
    if index < cmds.length then
      index ::
        (match oc index with
        | .exitOutcome => []
        | .falseOutcome => runPassGo cmds oc fuel (getNextIndex index cmds + 1)
        | .contOutcome =>
          if index + 1 < cmds.length && (cmds.getD (index + 1) (.plain 0)).isElse then
            runPassGo cmds oc fuel (getNextIndex (index + 1) cmds + 1)
          else
            runPassGo cmds oc fuel (index + 1))
    else []

/-- One pass of `__interpretEvent` from cursor `index`, with command outcomes
given by the oracle `oc` (covering arbitrary command behaviour). -/
def runPassO (cmds : List Cmd) (oc : Nat → Outcome) (index : Nat) : List Nat :=
  runPassGo cmds oc (cmds.length - index) index

/-- One pass of `__interpretEvent` where each command's outcome is the one
its variant determines (`Cmd.run`). -/
def runPass (cmds : List Cmd) (index : Nat) : List Nat :=
  runPassO cmds (fun j => (cmds.getD j (.plain 0)).run) index

/-- Construction parameters of an event/command descriptor; the loader passes
them through to the variant constructor without inspecting them, so they are
modelled by an opaque token. -/
abbrev Params := Nat

/-- One entry of an event descriptor's `commandList` in a serialized script:
`{typeLogic: string, parameters: ...}`. -/
structure CommandSave where
  typeLogic : String
  parameters : Params
  deriving DecidableEq

/-- One event descriptor of a serialized script:
`{typeLogic, parameters, commandList}`. -/
structure EventSave where
  typeLogic : String
  parameters : Params
  commandList : List CommandSave
  deriving DecidableEq

/-- A constructed Command object as the loader observes it: its variant tag
and the construction errors in its `.errors` attribute. -/
structure Command where
  typeLogic : String
  errors : List String
  deriving DecidableEq

/-- A constructed Event object as the loader observes it: variant tag,
construction errors and its `commandList` (filled by `event.addCommand`). -/
structure Event where
  typeLogic : String
  errors : List String
  commandList : List Command
  deriving DecidableEq

/-- Modelled from the spec: the Event/Command variant catalogue of
`Events.py`/`Commands.py` (external collaborators, §1/§4.1).  `getattr`
resolves a `typeLogic` tag to a class, or finds nothing; a resolved
constructor yields the construction errors of the built object.  The
unguarded `getattr(Events, ...)` of the source raises `AttributeError` for
an unresolved tag, which the loader result records in `raised`. -/
structure Registry where
  eventCtor : String → Option (Params → List String)
  cmdCtor : String → Option (Params → List String)

/-- The `errors` dict of `loadScript`: error kind to list of offending
typeTags, in insertion order. -/
abbrev ErrorMap := List (String × List String)

/-- `if error not in errors: errors[error] = []` followed by
`errors[error].append(tag)`. -/
def addError (errs : ErrorMap) (err tag : String) : ErrorMap :=
  if errs.any (fun p => p.1 = err) then
    errs.map (fun p => if p.1 = err then (p.1, p.2 ++ [tag]) else p)
  else errs ++ [(err, [tag])]

/-- The `for error in event.errors` / `for error in command.errors`
collection loops of `loadScript`. -/
def collectErrors (errs : ErrorMap) (newErrors : List String) (tag : String) : ErrorMap :=
  newErrors.foldl (fun m e => addError m e tag) errs

/-- The inner `for _, commandSave in enumerate(eventSave['commandList'])` loop
of `loadScript` (lines 134-142): resolve each command's variant, attach the
built command to the event, and collect its errors.  An unresolved tag stops
the loop with that tag recorded as raised (`getattr` raises). -/
def buildCmds (reg : Registry) :
    List CommandSave → List Command → ErrorMap → List Command × ErrorMap × Option String
  | [], acc, errs => (acc, errs, none)
  | cs :: rest, acc, errs =>
    match reg.cmdCtor cs.typeLogic with
    | none => (acc, errs, some cs.typeLogic)
    | some ctor =>
      let cmdErrs := ctor cs.parameters
      buildCmds reg rest (acc ++ [⟨cs.typeLogic, cmdErrs⟩]) (collectErrors errs cmdErrs cs.typeLogic)

/-- What a call to `loadScript` leaves behind: the interpreter's event list
(`self.events`, mutated by `addEvent` appends), the aggregated `errors` map,
and — when `getattr` raised on an unresolved tag — that tag (in which case
the error map is never returned to the caller). -/
structure LoadResult where
  errors : ErrorMap
  events : List Event
  raised : Option String
  deriving DecidableEq

/-- The main `for _, eventSave in enumerate(script)` loop of `loadScript`
(lines 121-142).  Each event is resolved, constructed, appended via
`self.addEvent` and its errors collected; then its commands are built.  On an
unresolved event tag, nothing is appended for that descriptor; on an
unresolved command tag, the partially filled event has already been appended
(mirroring the in-place mutation of the Python object). -/
def loadScriptAux (reg : Registry) :
    List EventSave → List Event → ErrorMap → LoadResult
  | [], evs, errs => ⟨errs, evs, none⟩
  | es :: rest, evs, errs =>
    match reg.eventCtor es.typeLogic with
    | none => ⟨errs, evs, some es.typeLogic⟩
    | some ctor =>
      let evErrs := ctor es.parameters
      let errs1 := collectErrors errs evErrs es.typeLogic
      match buildCmds reg es.commandList [] errs1 with
      | (cmds, errs2, none) => loadScriptAux reg rest (evs ++ [⟨es.typeLogic, evErrs, cmds⟩]) errs2
      | (cmds, errs2, some t) => ⟨errs2, evs ++ [⟨es.typeLogic, evErrs, cmds⟩], some t⟩

/-- `Interpreter.loadScript(script, env)` (lines 107-148), starting from the
interpreter's current event list `events0` (the source only ever appends via
`addEvent`; it never clears `self.events`). -/
def loadScript (reg : Registry) (script : List EventSave) (events0 : List Event) : LoadResult :=
  loadScriptAux reg script events0 []

/-- What a constructed Command looks like when its tag resolves: used to
describe `loadScript`'s output. -/
def buildCommandModel (reg : Registry) (cs : CommandSave) : Command :=
  ⟨cs.typeLogic, ((reg.cmdCtor cs.typeLogic).getD (fun _ => [])) cs.parameters⟩

/-- What a constructed Event looks like when every tag in it resolves. -/
def buildEventModel (reg : Registry) (es : EventSave) : Event :=
  ⟨es.typeLogic, ((reg.eventCtor es.typeLogic).getD (fun _ => [])) es.parameters,
    es.commandList.map (buildCommandModel reg)⟩

/-- Every variant tag mentioned by the script resolves in the registry. -/
def scriptRegistered (reg : Registry) (script : List EventSave) : Prop :=
  ∀ e ∈ script, (reg.eventCtor e.typeLogic).isSome = true ∧
    ∀ c ∈ e.commandList, (reg.cmdCtor c.typeLogic).isSome = true

instance (reg : Registry) (script : List EventSave) : Decidable (scriptRegistered reg script) := by
  unfold scriptRegistered
  infer_instance

/-- The worker thread handle, abstracted to the one observable the stop
protocol consumes: whether `join(3000)` ends with the thread no longer
alive. -/
structure ThreadHandle where
  diesWithinTimeout : Bool
  deriving DecidableEq

/-- A robot handle, abstracted to the cooperative-cancellation flag the
interpreter sets through `setExiting`. -/
structure RobotHandle where
  exiting : Bool
  deriving DecidableEq

/-- A vision handle: cancellation flag plus the active trackers that
`endAllTrackers` releases (modelled from the spec, §4.2: "ask visionHandle to
release any active trackers"; `Vision.py` is not part of the source under
verification). -/
structure VisionHandle where
  exiting : Bool
  activeTrackers : List String
  deriving DecidableEq

/-- The `Interpreter` state: `self.mainThread`, `self.__exiting`,
`self.events`, `self.__variables` and `self.currRunning`. -/
structure Interp where
  mainThread : Option ThreadHandle
  exiting : Bool
  events : List Event
  varStore : VarMap
  currRunning : List (Nat × List Nat)
  deriving DecidableEq

/-- `Interpreter.__init__` (lines 93-103): no thread, exiting, no events,
an empty variable store, empty run status. -/
def initInterp : Interp :=
  ⟨none, true, [], [], []⟩

/-- `Interpreter.isRunning` (lines 218-219):
`not self.__exiting or self.mainThread is not None`. -/
def isRunning (s : Interp) : Bool :=
  !s.exiting || s.mainThread.isSome

/-- `Interpreter.isExiting` (lines 221-224). -/
def isExiting (s : Interp) : Bool :=
  s.exiting

/-- The value `getStatus` hands back: the Python `False`, or the live
`currRunning` dict. -/
inductive StatusResult where
  | notRunning
  | running (m : List (Nat × List Nat))
  deriving DecidableEq

/-- `Interpreter.getStatus` (lines 226-234): `False` when `isExiting()`,
otherwise `self.currRunning`. -/
def getStatus (s : Interp) : StatusResult :=
  if isExiting s then .notRunning else .running s.currRunning

/-- The `safeList` of `endThread` (lines 197-199). -/
def safeList : List String :=
  ["math", "acos", "asin", "atan", "atan2", "ceil", "cos", "cosh", "degrees",
   "e", "exp", "fabs", "floor", "fmod", "frexp", "hypot", "ldexp", "log", "log10",
   "modf", "pi", "pow", "radians", "sin", "sinh", "sqrt", "tan", "tanh"]

/-- The variable reset of `endThread` (lines 196-210):
`dict([(k, locals().get(k, None)) for k in safeList])` — the local namespace
at that point holds none of the `safeList` names (the `math` module is never
imported in `Environment.py`), so every allow-listed name is bound to `None`;
then `abs`, `robot` and `vision` are assigned on top.  The robot/vision
arguments are stored as opaque handles. -/
def resetVariables (robotV visionV : PyVal) : VarMap :=
  dictSet (dictSet (dictSet (safeList.map (fun k => (k, PyVal.pynone)))
    "abs" (.fn "abs")) "robot" robotV) "vision" visionV

/-- `Interpreter.endThread(robot, vision)` (lines 169-212): set the exit flag;
if no worker is attached, fall through (Python returns `None`).  Otherwise
propagate the exit flag to both collaborators and join with a timeout: if the
thread is still alive, return `False` leaving it attached; on a clean stop,
clear the collaborators' exit flags, release trackers, drop the thread and
all events, reset the variable store, and return `True`. -/
def endThread (s : Interp) (robot : RobotHandle) (vision : VisionHandle) :
    Interp × RobotHandle × VisionHandle × Option Bool :=
  let s := { s with exiting := true }
  match s.mainThread with
  | none => (s, robot, vision, none)
  | some th =>
    let vision := { vision with exiting := true }
    let robot := { robot with exiting := true }
    if th.diesWithinTimeout then
      let vision := { vision with exiting := false, activeTrackers := [] }
      let robot := { robot with exiting := false }
      let s :=
        { s with
          mainThread := none
          events := []
          varStore := resetVariables (.handle "robot") (.handle "vision") }
      (s, robot, vision, some true)
    else (s, robot, vision, some false)

/-- A registry in which no variant tag resolves at all. -/
def cxRegistry : Registry :=
  ⟨fun _ => none, fun _ => none⟩

/-- A registry in which every event tag resolves to a variant whose
construction reports one error kind, and every command tag resolves
cleanly. -/
def okRegistry : Registry :=
  ⟨fun _ => some (fun _ => ["ParameterError"]), fun _ => some (fun _ => [])⟩

/-- A registry in which every tag resolves and construction is clean. -/
def allRegistry : Registry :=
  ⟨fun _ => some (fun _ => []), fun _ => some (fun _ => [])⟩

/-- An event already present in `self.events` before `loadScript` is called. -/
def priorEvent : Event :=
  ⟨"OldEvent", [], []⟩

/-- A one-descriptor script whose event carries one command descriptor. -/
def demoScriptC4 : List EventSave :=
  [⟨"InitEvent", 0, [⟨"MoveXYZCommand", 0⟩]⟩]

/-- A one-descriptor script with no commands. -/
def demoScriptC5a : List EventSave :=
  [⟨"InitEvent", 0, []⟩]

/-- A two-descriptor script with no commands. -/
def demoScriptC5b : List EventSave :=
  [⟨"InitEvent", 0, []⟩, ⟨"KeypressEvent", 0, []⟩]

/-- An interpreter mid-run (worker attached, not exiting, one loaded event,
one user variable) whose worker thread will terminate within the join
timeout. -/
def preStopInterp : Interp :=
  ⟨some ⟨true⟩, false, [⟨"StepEvent", [], []⟩], [("x", PyVal.num 3)], [(0, [0])]⟩

/-- The degraded state `endThread` documents when the join times out: the
exit flag is set but the worker is still attached (`isRunning()` is then
true through the `mainThread is not None` disjunct). -/
def stuckInterp : Interp :=
  ⟨some ⟨false⟩, true, [], [], [(0, [0, 1])]⟩

/-- An interpreter that is running normally (not exiting) with a live
run-status dict. -/
def idleInterp : Interp :=
  ⟨none, false, [], [], [(2, [0])]⟩

/-- The `__getNextIndex` scan never lands before the fallback index as long as
every loop index lies beyond it. -/
theorem scanFrom_ge (cmds : List Cmd) (fb : Nat) :
    ∀ (l : List Nat) (d : Int), (∀ j ∈ l, fb + 1 ≤ j) → fb ≤ scanFrom cmds fb l d := by
  intro l
  induction l with
  | nil => intro d _; simp [scanFrom]
  | cons i rest ih =>
    intro d h
    have hi : fb + 1 ≤ i := h i (List.mem_cons_self i rest)
    have hrest : ∀ j ∈ rest, fb + 1 ≤ j := fun j hj => h j (List.mem_cons_of_mem _ hj)
    simp only [scanFrom]
    split
    · split
      · omega
      · split
        · omega
        · exact ih _ hrest
    · split
      · omega
      · split
        · omega
        · exact ih _ hrest

/-- `__getNextIndex(index, commandList)` never moves the cursor backwards:
its result is at least `index`, so the caller's `index += 1` strictly
advances the cursor. -/
theorem getNextIndex_ge (i : Nat) (cmds : List Cmd) : i ≤ getNextIndex i cmds := by
  unfold getNextIndex
  apply scanFrom_ge
  intro j hj
  have := (List.mem_range'_1.mp hj).1
  omega

/-- Every command index the executor records from cursor `i` onwards is at
least `i`. -/
theorem runPassGo_mem_ge (cmds : List Cmd) (oc : Nat → Outcome) :
    ∀ (fuel i j : Nat), j ∈ runPassGo cmds oc fuel i → i ≤ j := by
  intro fuel
  induction fuel with
  | zero => intro i j h; simp [runPassGo] at h
  | succ f ih =>
    intro i j h
    simp only [runPassGo] at h
    split at h
    · rcases List.mem_cons.mp h with rfl | hmem
      · exact le_refl j
      · cases hoc : oc i
        · simp only [hoc] at hmem
          simp at hmem
        · simp only [hoc] at hmem
          have h1 := ih _ _ hmem
          have h2 := getNextIndex_ge i cmds
          omega
        · simp only [hoc] at hmem
          split at hmem
          · have h1 := ih _ _ hmem
            have h2 := getNextIndex_ge (i + 1) cmds
            omega
          · have h1 := ih _ _ hmem
            omega
    · simp at h

/-- The recorded command indices are strictly increasing: each command
position of an event runs at most once per pass. -/
theorem runPassGo_pairwise (cmds : List Cmd) (oc : Nat → Outcome) :
    ∀ (fuel i : Nat), List.Pairwise (fun a b => a < b) (runPassGo cmds oc fuel i) := by
  intro fuel
  induction fuel with
  | zero => intro i; simp [runPassGo]
  | succ f ih =>
    intro i
    simp only [runPassGo]
    split
    · cases hoc : oc i <;> simp only [hoc]
      · simp
      · refine List.Pairwise.cons (fun j hj => ?_) (ih _)
        have h1 := runPassGo_mem_ge cmds oc _ _ _ hj
        have h2 := getNextIndex_ge i cmds
        omega
      · split
        · refine List.Pairwise.cons (fun j hj => ?_) (ih _)
          have h1 := runPassGo_mem_ge cmds oc _ _ _ hj
          have h2 := getNextIndex_ge (i + 1) cmds
          omega
        · refine List.Pairwise.cons (fun j hj => ?_) (ih _)
          have h1 := runPassGo_mem_ge cmds oc _ _ _ hj
          omega
    · exact List.Pairwise.nil

/-- Fuel-invariance: any fuel of at least `cmds.length - index` produces the
same trace, because the cursor strictly increases on every iteration.  This
is the termination argument for the `while` loop of `__interpretEvent`: a
single pass performs at most `cmds.length - index` iterations. -/
theorem runPassGo_fuel_invariant (cmds : List Cmd) (oc : Nat → Outcome) :
    ∀ (f1 f2 i : Nat), cmds.length - i ≤ f1 → cmds.length - i ≤ f2 →
      runPassGo cmds oc f1 i = runPassGo cmds oc f2 i := by
  intro f1
  induction f1 with
  | zero =>
    intro f2 i h1 _
    have hi : ¬ i < cmds.length := by omega
    cases f2 with
    | zero => rfl
    | succ f2 => simp only [runPassGo]; rw [if_neg hi]
  | succ f ih =>
    intro f2 i h1 h2
    cases f2 with
    | zero =>
      have hi : ¬ i < cmds.length := by omega
      simp only [runPassGo]; rw [if_neg hi]
    | succ f2 =>
      simp only [runPassGo]
      by_cases hi : i < cmds.length
      · rw [if_pos hi, if_pos hi]
        have hg1 := getNextIndex_ge i cmds
        have hg2 := getNextIndex_ge (i + 1) cmds
        cases hoc : oc i <;> simp only [hoc]
        · rw [ih f2 (getNextIndex i cmds + 1) (by omega) (by omega)]
        · split
          · rw [ih f2 (getNextIndex (i + 1) cmds + 1) (by omega) (by omega)]
          · rw [ih f2 (i + 1) (by omega) (by omega)]
      · rw [if_neg hi, if_neg hi]

/-- When every command tag resolves, the inner command loop of `loadScript`
raises nothing and attaches exactly the constructed commands, in order. -/
theorem buildCmds_ok (reg : Registry) :
    ∀ (saves : List CommandSave) (acc : List Command) (errs : ErrorMap),
      (∀ c ∈ saves, (reg.cmdCtor c.typeLogic).isSome = true) →
      (buildCmds reg saves acc errs).1 = acc ++ saves.map (buildCommandModel reg) ∧
      (buildCmds reg saves acc errs).2.2 = none := by
  intro saves
  induction saves with
  | nil => intro acc errs _; simp [buildCmds]
  | cons cs rest ih =>
    intro acc errs h
    obtain ⟨ctor, hctor⟩ :=
      Option.isSome_iff_exists.mp (h cs (List.mem_cons_self cs rest))
    have hrest := ih (acc ++ [⟨cs.typeLogic, ctor cs.parameters⟩])
      (collectErrors errs (ctor cs.parameters) cs.typeLogic)
      (fun c hc => h c (List.mem_cons_of_mem _ hc))
    simp only [buildCmds, hctor]
    refine ⟨?_, hrest.2⟩
    rw [hrest.1]
    simp [buildCommandModel, hctor, List.append_assoc]

/-- When every tag of the script resolves, `loadScript`'s main loop raises
nothing and appends exactly one fully constructed event per descriptor, in
descriptor order, after whatever events were already present. -/
theorem loadScriptAux_ok (reg : Registry) :
    ∀ (script : List EventSave) (evs : List Event) (errs : ErrorMap),
      scriptRegistered reg script →
      (loadScriptAux reg script evs errs).events = evs ++ script.map (buildEventModel reg) ∧
      (loadScriptAux reg script evs errs).raised = none := by
  intro script
  induction script with
  | nil => intro evs errs _; simp [loadScriptAux]
  | cons es rest ih =>
    intro evs errs h
    have hes := h es (List.mem_cons_self es rest)
    obtain ⟨ctor, hctor⟩ := Option.isSome_iff_exists.mp hes.1
    have hcmds := buildCmds_ok reg es.commandList []
      (collectErrors errs (ctor es.parameters) es.typeLogic) hes.2
    have hrest := ih (evs ++ [⟨es.typeLogic, ctor es.parameters,
        es.commandList.map (buildCommandModel reg)⟩])
      (buildCmds reg es.commandList [] (collectErrors errs (ctor es.parameters) es.typeLogic)).2.1
      (fun e he => h e (List.mem_cons_of_mem _ he))
    simp only [loadScriptAux, hctor]
    obtain ⟨hc1, hc2⟩ := hcmds
    revert hc1 hc2
    rcases hb : buildCmds reg es.commandList []
        (collectErrors errs (ctor es.parameters) es.typeLogic) with ⟨cmds, errs2, raised⟩
    intro hc1 hc2
    simp only at hc1 hc2
    subst hc2
    simp only [List.nil_append] at hc1
    subst hc1
    rw [hb] at hrest
    simp only at hrest
    refine ⟨?_, hrest.2⟩
    rw [hrest.1]
    simp [buildEventModel, hctor, List.append_assoc]

/-- Claim C1 (confirmed).  Skip-Scan behaviour of the block-skip engine: for
`[If(false), A, B]` (A = `plain 1`, B = `plain 2`) with no block sentinels,
executing the If (outcome `False`) moves the cursor to
`__getNextIndex(0) + 1 = 1`, i.e. onto A, and the pass then runs A and B.
For `[If(false), StartBlock, A, B, EndBlock, C]` (C = `plain 3` at index 5),
executing the If lands the cursor on index 5, the first command after the
matching EndBlock, and the pass runs exactly the If and C. -/
theorem claim_c1_skip_scan :
    getNextIndex 0 [Cmd.ifC false, Cmd.plain 1, Cmd.plain 2] + 1 = 1 ∧
    runPass [Cmd.ifC false, Cmd.plain 1, Cmd.plain 2] 0 = [0, 1, 2] ∧
    getNextIndex 0
      [Cmd.ifC false, Cmd.startBlock, Cmd.plain 1, Cmd.plain 2, Cmd.endBlock, Cmd.plain 3]
      + 1 = 5 ∧
    runPass [Cmd.ifC false, Cmd.startBlock, Cmd.plain 1, Cmd.plain 2, Cmd.endBlock, Cmd.plain 3]
      0 = [0, 5] := by
  decide

/-- Claim C2 (confirmed).  Else suppression for
`[If(b), StartBlock, X, EndBlock, Else, StartBlock, Y, EndBlock, Z]` with
X = `plain 1` (index 2), Y = `plain 2` (index 6), Z = `plain 3` (index 8):
with `If(true)` one pass runs indices `[0, 1, 2, 3, 8]` — X runs, Y never
runs, Z runs; with `If(false)` it runs `[0, 4, 5, 6, 7, 8]` — X never runs,
Y runs, then Z runs. -/
theorem claim_c2_else_suppression :
    runPass [Cmd.ifC true, Cmd.startBlock, Cmd.plain 1, Cmd.endBlock, Cmd.elseC,
      Cmd.startBlock, Cmd.plain 2, Cmd.endBlock, Cmd.plain 3] 0 = [0, 1, 2, 3, 8] ∧
    runPass [Cmd.ifC false, Cmd.startBlock, Cmd.plain 1, Cmd.endBlock, Cmd.elseC,
      Cmd.startBlock, Cmd.plain 2, Cmd.endBlock, Cmd.plain 3] 0 = [0, 4, 5, 6, 7, 8] := by
  decide

/-- Claim C3 (code_bug).  The claim (and `setVariable`'s own docstring) says a
failed evaluation leaves the binding at its previous value; but the source
assigns `self.__variables[name] = newValue` unconditionally (the `if success:`
guard is commented out), so after `setVariable("x", "1/0")` an existing
binding `x = 5` becomes `None`, and a first-ever failed assignment also ends
at `None` rather than the just-created default 0. -/
theorem claim_c3_setVariable_failure_overwrites :
    dictGet (setVariable [("x", PyVal.num 5)] "x" (Expr.binop .div (.lit 1) (.lit 0))) "x"
      = some PyVal.pynone ∧
    dictGet (setVariable [] "x" (Expr.binop .div (.lit 1) (.lit 0))) "x"
      = some PyVal.pynone := by
  decide

/-- Claim C4, counterexample.  `loadScript` is claimed never to raise, even
for a typeTag with no registered variant; but the unguarded
`getattr(Events, eventSave['typeLogic'])` raises `AttributeError` for an
unknown tag — here the single descriptor `FooEvent` under a registry that
resolves nothing. -/
theorem claim_c4_cex_unknown_tag_raises :
    (loadScript cxRegistry [⟨"FooEvent", 0, []⟩] []).raised = some "FooEvent" := by
  decide

/-- Claim C4, amended: for every script whose event and command typeTags all
resolve to registered variants, `loadScript` completes without raising (and
hands back the aggregated error map it built). -/
theorem claim_c4_amended_no_raise_when_registered (reg : Registry)
    (script : List EventSave) (events0 : List Event)
    (h : scriptRegistered reg script) :
    (loadScript reg script events0).raised = none :=
  (loadScriptAux_ok reg script events0 [] h).2

/-- Witness for C4's amended theorem: a concrete one-event script whose event
construction reports a `ParameterError`; the load raises nothing and the
returned map aggregates the error kind with the offending typeTag. -/
theorem claim_c4_amended_witness :
    (loadScript okRegistry demoScriptC4 []).raised = none ∧
    (loadScript okRegistry demoScriptC4 []).errors = [("ParameterError", ["InitEvent"])] :=
  ⟨claim_c4_amended_no_raise_when_registered okRegistry demoScriptC4 [] (by decide),
    by decide⟩

/-- Claim C5, counterexample.  The claim says Events present before the call
do not remain; but `loadScript` only ever appends through `addEvent` and
never clears `self.events`, so loading a one-descriptor script over a
one-event interpreter leaves two events, the pre-existing one first. -/
theorem claim_c5_cex_prior_events_remain :
    (loadScript allRegistry demoScriptC5a [priorEvent]).events
      = [priorEvent, ⟨"InitEvent", [], []⟩] := by
  decide

/-- Claim C5, amended: for a script of N descriptors whose tags all resolve,
`loadScript` appends exactly N fully constructed Events in descriptor order
after the pre-existing events (so starting from an empty event list it yields
exactly N Events in original order; prior Events are merged in front, not
dropped). -/
theorem claim_c5_amended_append_in_order (reg : Registry)
    (script : List EventSave) (events0 : List Event)
    (h : scriptRegistered reg script) :
    (loadScript reg script events0).events = events0 ++ script.map (buildEventModel reg) ∧
    ((loadScript reg script events0).events).length = events0.length + script.length := by
  have h1 := (loadScriptAux_ok reg script events0 [] h).1
  exact ⟨h1, by unfold loadScript; rw [h1]; simp⟩

/-- Witness for C5's amended theorem: loading two descriptors over an empty
event list yields exactly those two events, in order. -/
theorem claim_c5_amended_witness :
    (loadScript allRegistry demoScriptC5b []).events
      = [⟨"InitEvent", [], []⟩, ⟨"KeypressEvent", [], []⟩] :=
  ((claim_c5_amended_append_in_order allRegistry demoScriptC5b [] (by decide)).1).trans
    (by decide)

/-- Claim C6 (code_bug).  After a clean stop the Events list is indeed empty,
the worker is detached, the trackers are released and `endThread` returns
`True`; but the "restored" variable store binds every allow-listed math name
to `None` — `locals()` inside `endThread` holds none of the `safeList` names
(the `math` module is never imported in `Environment.py`), so
`locals().get(k, None)` yields `None` for all of them, contradicting the
claim (and the source's own "Reset self.__variables with the default
values/functions" comment) that each math name is restored to its
allow-listed value. -/
theorem claim_c6_endThread_binds_math_names_to_none :
    endThread preStopInterp ⟨false⟩ ⟨false, ["motionTracker"]⟩
      = (⟨none, true, [], resetVariables (.handle "robot") (.handle "vision"), [(0, [0])]⟩,
         ⟨false⟩, ⟨false, []⟩, some true) ∧
    resetVariables (.handle "robot") (.handle "vision")
      = safeList.map (fun k => (k, PyVal.pynone)) ++
          [("abs", PyVal.fn "abs"), ("robot", PyVal.handle "robot"),
           ("vision", PyVal.handle "vision")] ∧
    dictGet (resetVariables (.handle "robot") (.handle "vision")) "sqrt"
      = some PyVal.pynone := by
  decide

/-- Claim C7 (code_bug).  `evaluateExpression("sqrt(16)")` is claimed to
return `(4.0, true)` under the default variable bindings; but the store of a
freshly constructed interpreter is empty (`sqrt` is a `NameError`) and the
post-stop "default" store binds `sqrt` to `None` (calling it is a
`TypeError`), so the call returns `(None, False)` either way.  The
`"1/0"`-style failure does return `(None, False)` as claimed. -/
theorem claim_c7_sqrt_never_evaluates :
    evaluateExpression (Expr.call "sqrt" (.lit 16)) initInterp.varStore
      = (PyVal.pynone, false) ∧
    evaluateExpression (Expr.call "sqrt" (.lit 16))
      (resetVariables (.handle "robot") (.handle "vision")) = (PyVal.pynone, false) ∧
    evaluateExpression (Expr.binop .div (.lit 1) (.lit 0)) initInterp.varStore
      = (PyVal.pynone, false) := by
  decide

/-- Claim C8, counterexample.  The claim says `getStatus` returns `False`
exactly while `isRunning()` is false; but `getStatus` tests `isExiting()`.
In the documented degraded state after a failed stop — exit flag set, worker
still attached — `isRunning()` is true yet `getStatus` returns `False`. -/
theorem claim_c8_cex_running_but_status_false :
    isRunning stuckInterp = true ∧ getStatus stuckInterp = .notRunning := by
  decide

/-- Claim C8, amended: `getStatus` returns `False` exactly while
`isExiting()` is true, and otherwise returns the live `currRunning`
mapping. -/
theorem claim_c8_amended_status_iff_exiting (s : Interp) :
    (getStatus s = .notRunning ↔ isExiting s = true) ∧
    (isExiting s = false → getStatus s = .running s.currRunning) := by
  unfold getStatus isExiting
  rcases hx : s.exiting <;> simp [hx]

/-- Witness for C8's amended theorem at a concrete non-exiting state. -/
theorem claim_c8_amended_witness :
    getStatus idleInterp = .running [(2, [0])] :=
  (claim_c8_amended_status_iff_exiting idleInterp).2 (by decide)

/-- Claim C9 (confirmed).  The cursor strictly increases on every iteration of
`__interpretEvent`'s loop: the skip-scan result is never below the incoming
cursor (so `__getNextIndex(...) + 1` exceeds it, as does the plain `index +=
1` advance), hence one pass terminates — for any command list and any
sequence of `run()` outcomes — and the command indices it records in
`currRunning` are strictly increasing: each command position runs at most
once per tick. -/
theorem claim_c9_cursor_strictly_increases (cmds : List Cmd) (oc : Nat → Outcome)
    (index : Nat) :
    index < getNextIndex index cmds + 1 ∧
    List.Pairwise (fun a b => a < b) (runPassO cmds oc index) :=
  ⟨by have := getNextIndex_ge index cmds; omega,
    runPassGo_pairwise cmds oc _ index⟩

/-- Claim C10 (confirmed).  `evaluateScript` returns `(None, False)` no matter
what: on an exception it returns `(None, False)` from the handler, and on
clean completion its local `answer` is still `None` (Python 3 `exec` cannot
rebind the enclosing function's locals), so the `if answer is None` branch
returns `(None, False)` as well — the success/value report carries no
information. -/
theorem claim_c10_evaluateScript_uninformative (oc : ExecOutcome) :
    evaluateScript oc = (PyVal.pynone, false) := by
  cases oc <;> rfl

end UArmEnv
